import Mathlib

/-!
Shallow embedding of the autoplay continuation engine of the zylae-node
repository (the player script, `src/unnamed/part_000`), together with proofs
of the specified properties.

Conventions of the embedding:
* JS strings stand for track ids; the empty string `""` models a JS falsy id
  (`null` / `undefined` / `''`), matching every `if (x)` truthiness test on ids.
* The module-level mutable variables (`previouslyPlayed`, `lastPlayedSongId`,
  `suggestionState`, the three language play counters) are gathered into an
  explicit `PlayerState` record that every operation threads through.
* Network collaborators (`fetch` of suggestions, song metadata, catalog
  search) are an `Env` record of pure oracles. A fetch that throws or returns
  malformed JSON is modelled by `none` / an empty result, exactly where the
  code's `try`/`catch` turns it into one. `Math.random()`-based selection is
  modelled by an arbitrary choice oracle `choose`, used modulo the list
  length just as the code computes `Math.floor(Math.random() * len)`.
* The `songCache` read-through cache is semantically transparent (it caches
  the very values the metadata oracle returns), so `env.songMeta` models
  `songCache.get(id)` / `fetch('/api/songs/' + id)` uniformly.
* The `async` functions recurse through each other; the embedding gives each
  a fuel parameter and returns `none` exactly when the fuel runs out, so
  termination claims become statements that a concrete fuel suffices.
* Each pipeline function returns the updated state together with the list of
  track ids it handed to `playSong` (in order): the "decision results".
-/

/-- `RECOMMENDER_CONFIG` (part_000 lines 2-8); fields not read by the
modelled logic are omitted. -/
structure RecommenderConfig where
  useClientTraining : Bool
  maxHistory : Nat
  prefetchTopK : Nat
deriving DecidableEq

def RECOMMENDER_CONFIG : RecommenderConfig :=
  { useClientTraining := false, maxHistory := 200, prefetchTopK := 10 }

/-- `ANTI_REPEAT_CONFIG` (part_000 lines 11-16); `debugLogging` only controls
console output and is omitted. -/
structure AntiRepeatConfig where
  maxHistorySize : Nat
  minHistoryBeforeRepeat : Nat
  enableSmartExclusion : Bool
deriving DecidableEq

def ANTI_REPEAT_CONFIG : AntiRepeatConfig :=
  { maxHistorySize := 200, minHistoryBeforeRepeat := 40, enableSmartExclusion := true }

/-- The three module-level language play counters (part_000 lines 76-78). -/
structure LangCounts where
  hindiPlayCount : Nat
  teluguPlayCount : Nat
  marathiPlayCount : Nat
deriving DecidableEq

/-- The mutable session state of the player: `previouslyPlayed`,
`lastPlayedSongId` (lines 19-20, `""` = null) and `suggestionState`
(lines 87-91) plus the language counters. -/
structure PlayerState where
  previouslyPlayed : List String
  lastPlayedSongId : String
  baseSongId : String
  queue : List String
  index : Int
  counts : LangCounts
deriving DecidableEq

/-- The slice of a catalog song object the engine reads (`s.id`,
`s.language`, `s.year`); `""` models a missing field. -/
structure Track where
  id : String
  language : String
  year : String
deriving DecidableEq

/-- Pure oracles for the external collaborators:
* `suggestions id` — `/api/songs/{id}/suggestions`, as the list of the ids of
  `json.data`; `none` models a thrown fetch/parse error, `some []` a missing
  or empty `data` array.
* `songMeta id` — `json.data[0]` of `/api/songs/{id}`; `none` models a failed
  fetch or absent song.
* `searchSongs q` — `extractSongsFromSearchResponse` of
  `/api/search/songs?query=q` (the limit parameter is folded into the
  oracle); a failed fetch is modelled as `[]`.
* `choose` — the random index source: the element picked from a non-empty
  list `l` is `l[choose l % l.length]`.
* `autoplay` — `window.ZY_SETTINGS.autoplay`. -/
structure Env where
  suggestions : String → Option (List String)
  songMeta : String → Option Track
  searchSongs : String → List Track
  choose : List Track → Nat
  autoplay : Bool

/-- The `while (list.length > maxSize) list.shift();` eviction loop used by
`addToHistory` (lines 28-30) and `clampHistory` (lines 37-41). -/
def evictOldest (maxSize : Nat) : List String → List String
  | [] => []
  | x :: xs => if (x :: xs).length > maxSize then evictOldest maxSize xs else x :: xs

/-- `addToHistory` (part_000 lines 22-35). -/
def addToHistory (cfg : AntiRepeatConfig) (hist : List String) (songId : String) :
    List String :=
  if songId = "" then hist
  else if hist.getLast? = some songId then hist
  else evictOldest cfg.maxHistorySize (hist ++ [songId])

/-- `clampHistory` (part_000 lines 37-41). -/
def clampHistory (cfg : RecommenderConfig) (hist : List String) : List String :=
  evictOldest cfg.maxHistory hist

/-- `canPlaySong` (part_000 lines 43-60): the anti-repeat gate. Note that
`previouslyPlayed.indexOf(songId)` finds the FIRST occurrence. -/
def canPlaySong (cfg : AntiRepeatConfig) (hist : List String) (songId : String) : Bool :=
  if !cfg.enableSmartExclusion then true
  else if songId = "" then false
  else
    match hist.findIdx? (· == songId) with
    | none => true
    | some idx => decide (hist.length - idx ≥ cfg.minHistoryBeforeRepeat)

/-- `getExclusionSet` (part_000 lines 62-68); the JS `Set` is modelled by a
list whose membership is the set membership. -/
def getExclusionSet (st : PlayerState) : List String :=
  (if st.lastPlayedSongId = "" then [] else [st.lastPlayedSongId])
    ++ st.queue ++ st.previouslyPlayed

/-- JS `a || b` on (possibly null, modelled `""`) id strings. -/
def jsOr (a b : String) : String := if a = "" then b else a

/-- JS `String.prototype.toLowerCase()` on the language strings the engine
compares; defined over the character list so that it evaluates inside the
kernel (`String.toLower` itself does not reduce definitionally). -/
def jsToLower (s : String) : String := ⟨s.data.map Char.toLower⟩

/-- `shouldPlayDiverse` (part_000 lines 328-340). `threshold[lc] || Infinity`
makes the predicate false for untracked languages. -/
def shouldPlayDiverse (c : LangCounts) (currentLang : String) : Bool :=
  let lc := jsToLower currentLang
  let overplayedCount :=
    if lc = "hindi" then c.hindiPlayCount
    else if lc = "telugu" then c.teluguPlayCount
    else if lc = "marathi" then c.marathiPlayCount
    else 0
  if lc = "hindi" then decide (overplayedCount ≥ 4)
  else if lc = "telugu" then decide (overplayedCount ≥ 3)
  else if lc = "marathi" then decide (overplayedCount ≥ 3)
  else false

/-- The language-counter update performed by `playSong` (part_000 lines
574-582): increment the matched (lower-cased) language, reset the others. -/
def updateLangCounts (lang : String) (c : LangCounts) : LangCounts :=
  { hindiPlayCount := if lang = "hindi" then c.hindiPlayCount + 1 else 0,
    teluguPlayCount := if lang = "telugu" then c.teluguPlayCount + 1 else 0,
    marathiPlayCount := if lang = "marathi" then c.marathiPlayCount + 1 else 0 }

/-- `fetchPopularRandomSong` (part_000 lines 235-244). -/
def fetchPopularRandomSong (env : Env) (excludeIds : List String) : Option Track :=
  let candidates := (env.searchSongs "popular").filter
    (fun s => !(s.id == "") && !(excludeIds.contains s.id))
  if candidates.isEmpty then none
  else candidates.get? (env.choose candidates % candidates.length)

mutual

/-- `playSong` (part_000 lines 544-608), restricted to its state effects:
history append + clamp (548-551), metadata lookup (553-560, via the
read-through `songCache` / metadata oracle; a missing song throws
`Song metadata not found`, caught at line 605, so the state keeps only the
history update), `lastPlayedSongId` update (562), suggestion-state reset on
an explicit selection (564-567), and the language counters (574-582).
The fire-and-forget `prefetchSuggestionsFor(id).catch(...)` of line 569 is
not awaited by the code; the cooperative model runs it after the synchronous
effects of the call. Audio/DOM output is external I/O and has no state. -/
def playSong (fuel : Nat) (env : Env) (st : PlayerState) (id : String)
    (fromAutoplay fromHistory : Bool) : Option (PlayerState × List String) :=
  match fuel with
  | 0 => none
  | n + 1 =>
    let hist1 :=
      clampHistory RECOMMENDER_CONFIG
        (addToHistory ANTI_REPEAT_CONFIG st.previouslyPlayed st.lastPlayedSongId)
    let st1 :=
      if !fromHistory && !(st.lastPlayedSongId == "") && !(st.lastPlayedSongId == id) then
        { st with previouslyPlayed := hist1 }
      else st
    match env.songMeta id with
    | none => some (st1, [])
    | some s =>
      let st2 := { st1 with lastPlayedSongId := id }
      let st3 :=
        if !fromAutoplay && !fromHistory then
          { st2 with baseSongId := id, queue := [], index := -1 }
        else st2
      let st4 := { st3 with counts := updateLangCounts (jsToLower s.language) st3.counts }
      if !fromAutoplay && !fromHistory then
        prefetchSuggestionsFor n env st4 id
      else
        some (st4, [])

/-- `prefetchSuggestionsFor` (part_000 lines 369-399): reset the suggestion
state, fetch suggestions, filter them through the exclusion set; on a thrown
fetch or an empty/missing `data` array, run the fallback. -/
def prefetchSuggestionsFor (fuel : Nat) (env : Env) (st : PlayerState) (songId : String) :
    Option (PlayerState × List String) :=
  match fuel with
  | 0 => none
  | n + 1 =>
    let st0 := { st with baseSongId := songId, queue := [], index := -1 }
    match env.suggestions songId with
    | none => fallbackFreshSongsWithExclusion n env st0
    | some data =>
      if data.isEmpty then fallbackFreshSongsWithExclusion n env st0
      else
        let excludeIds := getExclusionSet st0
        let ids := data.filter (fun id => !(id == "") && !(excludeIds.contains id))
        some ({ st0 with queue := ids, index := -1 }, [])

/-- `fallbackFreshSongsWithExclusion` (part_000 lines 456-525). -/
def fallbackFreshSongsWithExclusion (fuel : Nat) (env : Env) (st : PlayerState) :
    Option (PlayerState × List String) :=
  match fuel with
  | 0 => none
  | n + 1 =>
    let excludeIds := getExclusionSet st
    let baseId := jsOr st.lastPlayedSongId (st.previouslyPlayed.getLastD "")
    if baseId = "" then
      match fetchPopularRandomSong env excludeIds with
      | some cand =>
        if cand.id = "" then some (st, [])
        else (playSong n env st cand.id true false).map (fun r => (r.1, cand.id :: r.2))
      | none => some (st, [])
    else
      let s := env.songMeta baseId
      let qLang := match s with | some t => t.language | none => ""
      let qYear := match s with | some t => t.year | none => ""
      let queryStr := if qLang ≠ "" ∧ qYear ≠ "" then qLang ++ " " ++ qYear else qLang
      let candidates := env.searchSongs queryStr
      let freshCandidates := candidates.filter
        (fun song => !(song.id == "") && !(excludeIds.contains song.id))
      if candidates.length > 0 ∧ freshCandidates.length > 0 then
        match freshCandidates.get? (env.choose freshCandidates % freshCandidates.length) with
        | some fallbackSong =>
          (playSong n env st fallbackSong.id true false).map
            (fun r => (r.1, fallbackSong.id :: r.2))
        | none => some (st, [])
      else
        match fetchPopularRandomSong env excludeIds with
        | some popular =>
          if popular.id = "" then
            some ({ st with previouslyPlayed := [], queue := [], index := -1 }, [])
          else
            (playSong n env st popular.id true false).map
              (fun r => (r.1, popular.id :: r.2))
        | none =>
          some ({ st with previouslyPlayed := [], queue := [], index := -1 }, [])

/-- `playNextFromSuggestions` (part_000 lines 401-453): the `decideNext`
protocol. Step 1 replays the queue through the repeat gate; step 2 computes a
base id; step 3 refills via `prefetchSuggestionsFor`; otherwise the fallback
cascade runs. -/
def playNextFromSuggestions (fuel : Nat) (env : Env) (st : PlayerState) :
    Option (PlayerState × List String) :=
  match fuel with
  | 0 => none
  | n + 1 =>
    if st.queue.length ≠ 0 ∧ st.index < (st.queue.length : Int) - 1 then
      let st1 := { st with index := st.index + 1 }
      let nextId := st1.queue.getD st1.index.toNat ""
      if !canPlaySong ANTI_REPEAT_CONFIG st1.previouslyPlayed nextId then
        playNextFromSuggestions n env st1
      else
        match playSong n env st1 nextId true false with
        | none => none
        | some (st2, ps) =>
          some ({ st2 with baseSongId := jsOr (st2.queue.getLastD "") nextId },
            nextId :: ps)
    else
      let baseId :=
        jsOr (st.queue.getLastD "")
          (jsOr st.lastPlayedSongId (jsOr (st.previouslyPlayed.getLastD "") st.baseSongId))
      if baseId = "" then fallbackFreshSongsWithExclusion n env st
      else
        match prefetchSuggestionsFor n env st baseId with
        | none => none
        | some (st1, ps1) =>
          if st1.queue.length ≠ 0 then
            let st2 := { st1 with index := 0 }
            let nextId := st2.queue.getD 0 ""
            if !canPlaySong ANTI_REPEAT_CONFIG st2.previouslyPlayed nextId then
              (playNextFromSuggestions n env st2).map (fun r => (r.1, ps1 ++ r.2))
            else
              (playSong n env st2 nextId true false).map
                (fun r => (r.1, ps1 ++ nextId :: r.2))
          else
            (fallbackFreshSongsWithExclusion n env st1).map (fun r => (r.1, ps1 ++ r.2))

end

/-- `onEnded` (part_000 lines 528-541): returns immediately when autoplay is
disabled in the settings, otherwise runs `playNextFromSuggestions`; its
`try`/`catch` only logs. -/
def onEnded (fuel : Nat) (env : Env) (st : PlayerState) :
    Option (PlayerState × List String) :=
  if env.autoplay = false then some (st, [])
  else playNextFromSuggestions fuel env st

/-- Wrapper for the `previouslyPlayed.pop()` used by the previous-track
handlers (part_000 lines 647-652 and 712-722): removes the most recent
history entry. -/
def popLast (hist : List String) : List String := hist.dropLast

/-- A `{id, score}` entry pushed by `getNearestNeighbors` (part_000 line
146), extended with the catalog position `i` of the loop so that the
stable tie-break order is expressible; `id = none` models the `undefined`
read `this.ids[i]` when the payload has more vectors than ids. -/
structure NeighborEntry where
  idx : Nat
  id : Option String
  score : ℚ
deriving DecidableEq

/-- Dot product of two similarity vectors; scores are modelled over `ℚ`. -/
def dotProduct (v w : List ℚ) : ℚ := (List.zipWith (· * ·) v w).sum

/-- Insert an entry into a descending-by-score list, before any entry of
equal score (the inserted entry comes from an earlier catalog position). -/
def insertByScore (x : NeighborEntry) : List NeighborEntry → List NeighborEntry
  | [] => [x]
  | y :: ys => if x.score ≥ y.score then x :: y :: ys else y :: insertByScore x ys

/-- `results.sort((a, b) => b.score - a.score)` (part_000 line 148):
ECMAScript `Array.prototype.sort` is stable, so the call computes the unique
descending-by-score reordering that keeps equal-score entries in their
original (catalog) order; this stable insertion sort computes the same. -/
def sortByScoreDesc : List NeighborEntry → List NeighborEntry
  | [] => []
  | x :: xs => insertByScore x (sortByScoreDesc xs)

/-- State of the `TfjsRecommender` instance (part_000 lines 94-102): the
stored catalog ids, the stored embedding matrix and the `ready` flag.
`tf` normalizes each stored row by its Euclidean norm (lines 122-123), a
per-row positive scaling that is not exactly representable over `ℚ`; the
matrix is therefore modelled as the stored row vectors themselves, which is
immaterial to every property proved below. -/
structure TfjsRecommender where
  ids : List String
  embeddings : List (List ℚ)
  ready : Bool
deriving DecidableEq

/-- The freshly constructed recommender (constructor, lines 95-102). -/
def initialRecommender : TfjsRecommender :=
  { ids := [], embeddings := [], ready := false }

/-- The `idToIndex` map (built by `json.ids.forEach((id, idx) => set(id, idx))`,
line 120): for a duplicated id the later `set` wins, so lookup returns the
LAST index holding the id, `none` when the id is absent. -/
def idToIndex (ids : List String) (id : String) : Option Nat :=
  match ids.reverse.findIdx? (· == id) with
  | some j => some (ids.length - 1 - j)
  | none => none

/-- The `{ids, embeddings}` JSON payload; `none` fields model absent keys
(`!json.ids || !json.embeddings`, line 118). -/
structure EmbeddingsJson where
  ids : Option (List String)
  embeddings : Option (List (List ℚ))

/-- Environment of `TfjsRecommender.init`: whether `window.tf` is present
and the result of fetching the embeddings JSON (`none` = the fetch or
`res.json()` threw). -/
structure RecommenderEnv where
  tfAvailable : Bool
  fetchResult : Option EmbeddingsJson

/-- `TfjsRecommender.init` (part_000 lines 104-130): returns early when
`window.tf` is missing or client training is configured; otherwise loads the
payload once, and on ANY failure (thrown fetch, missing `ids` or
`embeddings` key) the `catch` sets `ready = false`. Nothing in the program
calls `init` again (it runs once at DOMContentLoaded, line 697). -/
def TfjsRecommender.init (env : RecommenderEnv) (r : TfjsRecommender) :
    TfjsRecommender :=
  if !env.tfAvailable then r
  else if RECOMMENDER_CONFIG.useClientTraining then { r with ready := false }
  else
    match env.fetchResult with
    | none => { r with ready := false }
    | some json =>
      match json.ids, json.embeddings with
      | some ids, some embs => { ids := ids, embeddings := embs, ready := true }
      | some _, none => { r with ready := false }
      | none, some _ => { r with ready := false }
      | none, none => { r with ready := false }

/-- The result-collection loop of `getNearestNeighbors` (part_000 lines
141-147): for each catalog row `i`, skip it when its id equals the query id
or is in `excludeIds` (a `has(undefined)` test on an out-of-range id read is
false), otherwise push a `{id, score}` entry. -/
def neighborResults (ids : List String) (songId : String) (excludeIds : List String)
    (simsArray : List ℚ) : List NeighborEntry :=
  (List.range simsArray.length).filterMap (fun i =>
    let id := ids.get? i
    if id = some songId then none
    else if (match id with | some s => excludeIds.contains s | none => false) then
      none
    else some { idx := i, id := id, score := simsArray.getD i 0 })

/-- `TfjsRecommender.getNearestNeighbors` (part_000 lines 132-151): empty
when not ready or the id is unknown; otherwise every catalog row is scored
against the query row, the skipped rows are dropped (`neighborResults`), and
the rest are sorted by descending score (stably) and truncated to `topK`. -/
def TfjsRecommender.getNearestNeighbors (r : TfjsRecommender) (songId : String)
    (topK : Nat) (excludeIds : List String) : List NeighborEntry :=
  if !r.ready then []
  else
    match idToIndex r.ids songId with
    | none => []
    | some idx =>
      let query := r.embeddings.getD idx []
      let simsArray := r.embeddings.map (fun v => dotProduct v query)
      (sortByScoreDesc (neighborResults r.ids songId excludeIds simsArray)).take topK

/-- Length of the current consecutive streak of language `lang` at the end
of the chronological list `langs` of played-track languages. -/
def streakLen (lang : String) (langs : List String) : Nat :=
  (langs.reverse.takeWhile (fun l => l == lang)).length

/-! ### History lemmas -/

theorem evictOldest_eq_drop (m : Nat) (l : List String) :
    evictOldest m l = l.drop (l.length - m) := by
  induction l with
  | nil => simp [evictOldest]
  | cons x xs ih =>
    simp only [evictOldest]
    by_cases h : (x :: xs).length > m
    · rw [if_pos h, ih]
      have hm : m ≤ xs.length := by simp only [List.length_cons] at h; omega
      have hlen : (x :: xs).length - m = (xs.length - m) + 1 := by
        simp only [List.length_cons]; omega
      rw [hlen, List.drop_succ_cons]
    · rw [if_neg h]
      have hlen : (x :: xs).length - m = 0 := by
        simp only [List.length_cons] at h ⊢; omega
      rw [hlen, List.drop_zero]

theorem evictOldest_length_le (m : Nat) (l : List String) :
    (evictOldest m l).length ≤ m := by
  induction l with
  | nil => simp [evictOldest]
  | cons x xs ih =>
    simp only [evictOldest]
    by_cases h : (x :: xs).length > m
    · rwa [if_pos h]
    · rw [if_neg h]; omega

theorem getLast?_drop_of_lt {α : Type} (l : List α) (k : Nat) (h : k < l.length) :
    (l.drop k).getLast? = l.getLast? := by
  rw [List.getLast?_eq_getElem?, List.getLast?_eq_getElem?, List.length_drop,
    List.getElem?_drop]
  congr 1
  omega

theorem evictOldest_getLast? (m : Nat) (hm : 0 < m) (l : List String) (hl : l ≠ []) :
    (evictOldest m l).getLast? = l.getLast? := by
  rw [evictOldest_eq_drop]
  apply getLast?_drop_of_lt
  have : 0 < l.length := List.length_pos.mpr hl
  omega

theorem mem_of_getLast?_eq {α : Type} {l : List α} {a : α} (h : l.getLast? = some a) :
    a ∈ l := by
  rw [List.getLast?_eq_getElem?] at h
  rw [List.getElem?_eq_some] at h
  obtain ⟨hlt, hget⟩ := h
  exact hget ▸ List.getElem_mem hlt

theorem addToHistory_length_le (hist : List String) (id : String)
    (h : hist.length ≤ ANTI_REPEAT_CONFIG.maxHistorySize) :
    (addToHistory ANTI_REPEAT_CONFIG hist id).length ≤ ANTI_REPEAT_CONFIG.maxHistorySize := by
  unfold addToHistory
  split
  · exact h
  · split
    · exact h
    · exact evictOldest_length_le _ _

theorem addToHistory_getLast? (hist : List String) (id : String) (hid : id ≠ "") :
    (addToHistory ANTI_REPEAT_CONFIG hist id).getLast? = some id := by
  unfold addToHistory
  rw [if_neg hid]
  split
  · assumption
  · rw [evictOldest_getLast? _ (by decide) _ (by simp), List.getLast?_concat]

theorem mem_clamp_addToHistory (hist : List String) (id : String) (hid : id ≠ "") :
    id ∈ clampHistory RECOMMENDER_CONFIG (addToHistory ANTI_REPEAT_CONFIG hist id) := by
  apply mem_of_getLast?_eq
  unfold clampHistory
  have h1 := addToHistory_getLast? hist id hid
  have hne : addToHistory ANTI_REPEAT_CONFIG hist id ≠ [] := by
    intro h; rw [h] at h1; simp at h1
  rw [evictOldest_getLast? _ (by decide) _ hne]
  exact h1

/-- C5: bounded history. For every sequence of `addToHistory` calls starting
from any history within capacity (in particular the empty session-start
history), the history length stays at most `maxHistorySize = 200` after each
call; an append equal to the current last entry is a no-op, and otherwise the
id is appended and entries are evicted from the front exactly while the
length exceeds capacity (the `while`-loop equals a front `drop`). -/
theorem addToHistory_bounded_C5 :
    (∀ (ids : List String) (h0 : List String),
      h0.length ≤ ANTI_REPEAT_CONFIG.maxHistorySize →
      (ids.foldl (addToHistory ANTI_REPEAT_CONFIG) h0).length
        ≤ ANTI_REPEAT_CONFIG.maxHistorySize)
  ∧ (∀ (hist : List String) (id : String), hist.getLast? = some id →
      addToHistory ANTI_REPEAT_CONFIG hist id = hist)
  ∧ (∀ (hist : List String) (id : String), id ≠ "" → hist.getLast? ≠ some id →
      addToHistory ANTI_REPEAT_CONFIG hist id =
        (hist ++ [id]).drop ((hist ++ [id]).length - ANTI_REPEAT_CONFIG.maxHistorySize)) := by
  refine ⟨?_, ?_, ?_⟩
  · intro ids
    induction ids with
    | nil => intro h0 h; simpa using h
    | cons x xs ih =>
      intro h0 h
      simpa using ih (addToHistory ANTI_REPEAT_CONFIG h0 x) (addToHistory_length_le h0 x h)
  · intro hist id hlast
    by_cases hid : id = ""
    · simp [addToHistory, hid]
    · simp [addToHistory, hid, hlast]
  · intro hist id hid hlast
    unfold addToHistory
    rw [if_neg hid, if_neg hlast, evictOldest_eq_drop]

/-- Witness for C5 at concrete inputs. -/
theorem addToHistory_bounded_C5_witness :
    (([] : List String).length ≤ ANTI_REPEAT_CONFIG.maxHistorySize
      ∧ (["a", "b", "a"].foldl (addToHistory ANTI_REPEAT_CONFIG) []).length
          ≤ ANTI_REPEAT_CONFIG.maxHistorySize)
  ∧ ((["a"] : List String).getLast? = some "a"
      ∧ addToHistory ANTI_REPEAT_CONFIG ["a"] "a" = ["a"])
  ∧ (("b" : String) ≠ "" ∧ (["a"] : List String).getLast? ≠ some "b"
      ∧ addToHistory ANTI_REPEAT_CONFIG ["a"] "b" =
          (["a"] ++ ["b"]).drop ((["a"] ++ ["b"]).length - ANTI_REPEAT_CONFIG.maxHistorySize)) :=
  ⟨⟨by decide, addToHistory_bounded_C5.1 ["a", "b", "a"] [] (by decide)⟩,
   ⟨by decide, addToHistory_bounded_C5.2.1 ["a"] "a" (by decide)⟩,
   ⟨by decide, by decide, addToHistory_bounded_C5.2.2 ["a"] "b" (by decide) (by decide)⟩⟩

/-- C6: no two consecutive history entries are equal, preserved by every
history operation: `addToHistory` (append guarded by the last entry), front
eviction (`evictOldest`, as run by `addToHistory`/`clampHistory`), removal
of the most recent entry (`popLast`, the `previouslyPlayed.pop()` of the
back-navigation handlers), and clearing. -/
theorem history_no_adjacent_dup_C6 :
    (∀ (hist : List String) (id : String), List.Chain' (· ≠ ·) hist →
      List.Chain' (· ≠ ·) (addToHistory ANTI_REPEAT_CONFIG hist id))
  ∧ (∀ (m : Nat) (hist : List String), List.Chain' (· ≠ ·) hist →
      List.Chain' (· ≠ ·) (evictOldest m hist))
  ∧ (∀ hist : List String, List.Chain' (· ≠ ·) hist →
      List.Chain' (· ≠ ·) (popLast hist))
  ∧ List.Chain' (· ≠ ·) ([] : List String) := by
  have hevict : ∀ (m : Nat) (hist : List String), List.Chain' (· ≠ ·) hist →
      List.Chain' (· ≠ ·) (evictOldest m hist) := by
    intro m hist h
    rw [evictOldest_eq_drop]
    exact h.suffix (List.drop_suffix _ _)
  refine ⟨?_, hevict, ?_, List.chain'_nil⟩
  · intro hist id h
    unfold addToHistory
    split
    · exact h
    · split
      · exact h
      · rename_i hid hlast
        apply hevict
        rw [List.chain'_append]
        refine ⟨h, List.chain'_singleton _, ?_⟩
        intro x hx y hy
        simp only [List.head?_cons, Option.mem_def, Option.some.injEq] at hy
        subst hy
        intro hxy
        subst hxy
        exact hlast hx
  · intro hist h
    exact h.prefix (List.dropLast_prefix _)

/-- Witness for C6 at concrete inputs. -/
theorem history_no_adjacent_dup_C6_witness :
    (List.Chain' (· ≠ ·) ["a", "b"]
      ∧ List.Chain' (· ≠ ·) (addToHistory ANTI_REPEAT_CONFIG ["a", "b"] "b")
      ∧ List.Chain' (· ≠ ·) (addToHistory ANTI_REPEAT_CONFIG ["a", "b"] "a"))
  ∧ List.Chain' (· ≠ ·) (evictOldest 2 ["a", "b", "a"])
  ∧ List.Chain' (· ≠ ·) (popLast ["a", "b"])
  ∧ List.Chain' (· ≠ ·) ([] : List String) := by
  have hab : List.Chain' (· ≠ ·) ["a", "b"] := List.chain'_pair.mpr (by decide)
  have haba : List.Chain' (· ≠ ·) ["a", "b", "a"] :=
    List.chain'_cons.mpr ⟨by decide, List.chain'_pair.mpr (by decide)⟩
  exact ⟨⟨hab, history_no_adjacent_dup_C6.1 ["a", "b"] "b" hab,
    history_no_adjacent_dup_C6.1 ["a", "b"] "a" hab⟩,
   history_no_adjacent_dup_C6.2.1 2 ["a", "b", "a"] haba,
   history_no_adjacent_dup_C6.2.2.1 ["a", "b"] hab,
   history_no_adjacent_dup_C6.2.2.2⟩

/-- A history in which track "x" occurs first at position 0 (aged past the
repeat gap) and again as the very last entry: reachable, since only adjacent
duplicates are prevented and a track older than the gap may be replayed. -/
def histBad : List String :=
  "x" :: ((List.range 39).map (fun i => if i % 2 = 0 then "b" else "c") ++ ["x"])

/-- C2: the repeat gate queries the FIRST occurrence (`indexOf`), not the
most recent one. On `histBad` (41 entries), "x" occurs at position 40 — the
most recent entry, distance 1 < minHistoryBeforeRepeat = 40 — so by the
specified semantics `isRecentlyPlayed` must be true (gate closed), yet
`canPlaySong` computes distance 41 from the stale first occurrence and
returns true (gate open). -/
theorem canPlaySong_firstOccurrence_C2 :
    canPlaySong ANTI_REPEAT_CONFIG histBad "x" = true
  ∧ histBad.get? 40 = some "x"
  ∧ histBad.length - 40 < ANTI_REPEAT_CONFIG.minHistoryBeforeRepeat
  ∧ histBad.getLast? = some "x" := by decide

/-- C10: when autoplay is disabled in the settings, the track-ended handler
returns without selecting or playing anything and the whole player state
(history, last-played id, suggestion queue, cursor, language counters) is
unchanged. -/
theorem onEnded_autoplay_off_C10 (fuel : Nat) (env : Env) (st : PlayerState)
    (h : env.autoplay = false) : onEnded fuel env st = some (st, []) := by
  simp [onEnded, h]

/-- Witness for C10 at concrete inputs. -/
theorem onEnded_autoplay_off_C10_witness :
    onEnded 4
      { suggestions := fun _ => some ["q"], songMeta := fun _ => none,
        searchSongs := fun _ => [], choose := fun _ => 0, autoplay := false }
      ⟨["a"], "b", "a", ["q"], 0, ⟨1, 0, 0⟩⟩
      = some (⟨["a"], "b", "a", ["q"], 0, ⟨1, 0, 0⟩⟩, []) :=
  onEnded_autoplay_off_C10 4 _ _ rfl

/-! ### Language counters -/

theorem streakLen_nil (lang : String) : streakLen lang [] = 0 := rfl

theorem streakLen_concat (lang x : String) (xs : List String) :
    streakLen lang (xs ++ [x]) = if x = lang then streakLen lang xs + 1 else 0 := by
  simp only [streakLen, List.reverse_append, List.reverse_cons, List.reverse_nil,
    List.nil_append, List.cons_append, List.takeWhile_cons]
  by_cases h : x = lang
  · simp [h]
  · simp [h]

theorem updateLangCounts_hindi (x : String) (c : LangCounts) :
    (updateLangCounts x c).hindiPlayCount =
      if x = "hindi" then c.hindiPlayCount + 1 else 0 := rfl

theorem updateLangCounts_telugu (x : String) (c : LangCounts) :
    (updateLangCounts x c).teluguPlayCount =
      if x = "telugu" then c.teluguPlayCount + 1 else 0 := rfl

theorem updateLangCounts_marathi (x : String) (c : LangCounts) :
    (updateLangCounts x c).marathiPlayCount =
      if x = "marathi" then c.marathiPlayCount + 1 else 0 := rfl

theorem foldl_updateLangCounts_streak (langs : List String) :
    (langs.foldl (fun c l => updateLangCounts l c) ⟨0, 0, 0⟩).hindiPlayCount
      = streakLen "hindi" langs
  ∧ (langs.foldl (fun c l => updateLangCounts l c) ⟨0, 0, 0⟩).teluguPlayCount
      = streakLen "telugu" langs
  ∧ (langs.foldl (fun c l => updateLangCounts l c) ⟨0, 0, 0⟩).marathiPlayCount
      = streakLen "marathi" langs := by
  induction langs using List.reverseRecOn with
  | nil => exact ⟨rfl, rfl, rfl⟩
  | append_singleton xs x ih =>
    obtain ⟨ih1, ih2, ih3⟩ := ih
    rw [List.foldl_concat]
    refine ⟨?_, ?_, ?_⟩
    · rw [updateLangCounts_hindi, streakLen_concat, ih1]
    · rw [updateLangCounts_telugu, streakLen_concat, ih2]
    · rw [updateLangCounts_marathi, streakLen_concat, ih3]

/-- C9: recording a play of language L increments L's consecutive-play
counter and resets the other tracked counters to zero (an untracked language
resets all three); `playSong` applies exactly this update to the play's
(lower-cased) language; consequently, over any session play sequence, at
most one of the hindi/telugu/marathi counters is non-zero and each tracked
counter equals the length of the current trailing streak of its language. -/
theorem langCounts_streak_C9 :
    (∀ (fuel : Nat) (env : Env) (st : PlayerState) (id : String) (s : Track)
        (st' : PlayerState) (ps : List String),
      env.songMeta id = some s →
      playSong (fuel + 1) env st id true false = some (st', ps) →
      st'.counts = updateLangCounts (jsToLower s.language) st.counts)
  ∧ (∀ c : LangCounts,
      updateLangCounts "hindi" c = ⟨c.hindiPlayCount + 1, 0, 0⟩
    ∧ updateLangCounts "telugu" c = ⟨0, c.teluguPlayCount + 1, 0⟩
    ∧ updateLangCounts "marathi" c = ⟨0, 0, c.marathiPlayCount + 1⟩
    ∧ ∀ l : String, l ≠ "hindi" → l ≠ "telugu" → l ≠ "marathi" →
        updateLangCounts l c = ⟨0, 0, 0⟩)
  ∧ (∀ langs : List String,
      (langs.foldl (fun c l => updateLangCounts l c) ⟨0, 0, 0⟩).hindiPlayCount
        = streakLen "hindi" langs
    ∧ (langs.foldl (fun c l => updateLangCounts l c) ⟨0, 0, 0⟩).teluguPlayCount
        = streakLen "telugu" langs
    ∧ (langs.foldl (fun c l => updateLangCounts l c) ⟨0, 0, 0⟩).marathiPlayCount
        = streakLen "marathi" langs)
  ∧ (∀ (l : String) (c : LangCounts),
      ((updateLangCounts l c).hindiPlayCount = 0
          ∧ (updateLangCounts l c).teluguPlayCount = 0)
    ∨ ((updateLangCounts l c).hindiPlayCount = 0
          ∧ (updateLangCounts l c).marathiPlayCount = 0)
    ∨ ((updateLangCounts l c).teluguPlayCount = 0
          ∧ (updateLangCounts l c).marathiPlayCount = 0)) := by
  refine ⟨?_, ?_, foldl_updateLangCounts_streak, ?_⟩
  · intro fuel env st id s st' ps hmeta hrun
    by_cases hc1 : st.lastPlayedSongId = "" <;>
      by_cases hc2 : st.lastPlayedSongId = id <;>
      simp [playSong, hmeta, hc1, hc2] at hrun <;>
      obtain ⟨h1, h2⟩ := hrun <;>
      subst h1 <;> rfl
  · intro c
    refine ⟨rfl, ?_, ?_, ?_⟩
    · simp [updateLangCounts]
    · simp [updateLangCounts]
    · intro l h1 h2 h3
      simp [updateLangCounts, h1, h2, h3]
  · intro l c
    by_cases h1 : l = "hindi"
    · right; right; simp [updateLangCounts, h1]
    · by_cases h2 : l = "telugu"
      · right; left; simp [updateLangCounts, h2]
      · left; simp [updateLangCounts, h1, h2]

def envW9 : Env :=
  { suggestions := fun _ => some [],
    songMeta := fun id => if id = "x" then some ⟨"x", "Hindi", "2015"⟩ else none,
    searchSongs := fun _ => [], choose := fun _ => 0, autoplay := true }

def stW9 : PlayerState :=
  { previouslyPlayed := [], lastPlayedSongId := "", baseSongId := "",
    queue := [], index := -1, counts := ⟨2, 0, 0⟩ }

def stW9res : PlayerState :=
  { previouslyPlayed := [], lastPlayedSongId := "x", baseSongId := "",
    queue := [], index := -1, counts := ⟨3, 0, 0⟩ }

/-- Witness for C9 at concrete inputs. -/
theorem langCounts_streak_C9_witness :
    envW9.songMeta "x" = some ⟨"x", "Hindi", "2015"⟩
  ∧ playSong 1 envW9 stW9 "x" true false = some (stW9res, [])
  ∧ stW9res.counts = updateLangCounts (jsToLower "Hindi") stW9.counts :=
  ⟨rfl, rfl, langCounts_streak_C9.1 0 envW9 stW9 "x" ⟨"x", "Hindi", "2015"⟩ stW9res [] rfl rfl⟩

/-! ### Embedding index -/

/-- C8: if the one-time embedding load fails in any way — the fetch/parse
throws (`fetchResult = none`) or the payload lacks `ids` or `embeddings` —
then `ready` is false, and since `init` runs exactly once per session
(DOMContentLoaded) and no query mutates the index, every subsequent
`getNearestNeighbors` call of the session returns the empty list; the
`catch` absorbs the failure, so no error reaches the caller (`init` and the
queries are total functions in the model). -/
theorem embeddingFailure_permanent_C8 (env : RecommenderEnv)
    (hfail : env.fetchResult = none
      ∨ ∃ j, env.fetchResult = some j ∧ (j.ids = none ∨ j.embeddings = none)) :
    (TfjsRecommender.init env initialRecommender).ready = false
  ∧ ∀ calls : List (String × Nat × List String),
      calls.map (fun c =>
        (TfjsRecommender.init env initialRecommender).getNearestNeighbors c.1 c.2.1 c.2.2)
      = calls.map (fun _ => ([] : List NeighborEntry)) := by
  have hready : (TfjsRecommender.init env initialRecommender).ready = false := by
    unfold TfjsRecommender.init
    by_cases htf : env.tfAvailable
    · rcases hfail with hnone | ⟨j, hj, hbad⟩
      · simp [htf, hnone, RECOMMENDER_CONFIG, initialRecommender]
      · rcases hbad with hids | hembs
        · cases hje : j.embeddings <;>
            simp [htf, hj, hids, hje, RECOMMENDER_CONFIG, initialRecommender]
        · cases hji : j.ids <;>
            simp [htf, hj, hji, hembs, RECOMMENDER_CONFIG, initialRecommender]
    · simp [htf, initialRecommender]
  refine ⟨hready, ?_⟩
  intro calls
  induction calls with
  | nil => rfl
  | cons c cs ih =>
    simp only [List.map_cons, ih, List.cons.injEq, and_true]
    simp [TfjsRecommender.getNearestNeighbors, hready]

/-- Witness for C8 at concrete inputs. -/
theorem embeddingFailure_permanent_C8_witness :
    (TfjsRecommender.init ⟨true, none⟩ initialRecommender).ready = false
  ∧ [("a", 5, ["b"]), ("c", 0, [])].map (fun c =>
      (TfjsRecommender.init ⟨true, none⟩ initialRecommender).getNearestNeighbors
        c.1 c.2.1 c.2.2)
      = [[], []] :=
  ⟨(embeddingFailure_permanent_C8 ⟨true, none⟩ (Or.inl rfl)).1,
   (embeddingFailure_permanent_C8 ⟨true, none⟩ (Or.inl rfl)).2 [("a", 5, ["b"]), ("c", 0, [])]⟩

/-! ### Stable descending sort -/

/-- The ranking order produced by the stable descending sort: strictly
higher score first, catalog order on ties. -/
def neighborOrder (a b : NeighborEntry) : Prop :=
  b.score < a.score ∨ (a.score = b.score ∧ a.idx < b.idx)

theorem neighborOrder_score_le {a b : NeighborEntry} (h : neighborOrder a b) :
    b.score ≤ a.score := by
  rcases h with h | ⟨h, _⟩
  · exact le_of_lt h
  · exact le_of_eq h.symm

theorem mem_insertByScore {a x : NeighborEntry} {l : List NeighborEntry} :
    a ∈ insertByScore x l ↔ a = x ∨ a ∈ l := by
  induction l with
  | nil => simp [insertByScore]
  | cons y ys ih =>
    simp only [insertByScore]
    split
    · simp [List.mem_cons]
    · simp only [List.mem_cons, ih]
      tauto

theorem pairwise_insertByScore {x : NeighborEntry} {l : List NeighborEntry}
    (hl : l.Pairwise neighborOrder) (hidx : ∀ y ∈ l, x.idx < y.idx) :
    (insertByScore x l).Pairwise neighborOrder := by
  induction l with
  | nil => simp [insertByScore]
  | cons y ys ih =>
    rw [List.pairwise_cons] at hl
    obtain ⟨hy, hys⟩ := hl
    simp only [insertByScore]
    split
    · rename_i hge
      rw [List.pairwise_cons]
      refine ⟨?_, List.pairwise_cons.mpr ⟨hy, hys⟩⟩
      intro z hz
      rcases List.mem_cons.mp hz with rfl | hz'
      · rcases eq_or_lt_of_le hge with heq | hlt
        · exact Or.inr ⟨heq.symm, hidx z (List.mem_cons_self _ _)⟩
        · exact Or.inl hlt
      · have hz_le : z.score ≤ x.score :=
          le_trans (neighborOrder_score_le (hy z hz')) hge
        rcases eq_or_lt_of_le hz_le with heq | hlt
        · exact Or.inr ⟨heq.symm, hidx z (List.mem_cons_of_mem _ hz')⟩
        · exact Or.inl hlt
    · rename_i hnge
      push_neg at hnge
      rw [List.pairwise_cons]
      constructor
      · intro z hz
        rcases mem_insertByScore.mp hz with rfl | hz'
        · exact Or.inl hnge
        · exact hy z hz'
      · exact ih hys (fun z hz => hidx z (List.mem_cons_of_mem _ hz))

theorem mem_sortByScoreDesc {a : NeighborEntry} {l : List NeighborEntry} :
    a ∈ sortByScoreDesc l ↔ a ∈ l := by
  induction l with
  | nil => simp [sortByScoreDesc]
  | cons x xs ih => simp [sortByScoreDesc, mem_insertByScore, ih]

theorem pairwise_sortByScoreDesc {l : List NeighborEntry}
    (h : l.Pairwise (fun a b => a.idx < b.idx)) :
    (sortByScoreDesc l).Pairwise neighborOrder := by
  induction l with
  | nil => simp [sortByScoreDesc]
  | cons x xs ih =>
    rw [List.pairwise_cons] at h
    exact pairwise_insertByScore (ih h.2)
      (fun y hy => h.1 y (mem_sortByScoreDesc.mp hy))

theorem neighborResults_spec {ids : List String} {songId : String}
    {excludeIds : List String} {sims : List ℚ} {e : NeighborEntry}
    (h : e ∈ neighborResults ids songId excludeIds sims) :
    e.id ≠ some songId ∧ (∀ x ∈ excludeIds, e.id ≠ some x) := by
  unfold neighborResults at h
  rw [List.mem_filterMap] at h
  obtain ⟨i, _, hfi⟩ := h
  simp only at hfi
  split at hfi
  · exact absurd hfi (by simp)
  · split at hfi
    · exact absurd hfi (by simp)
    · rename_i hne hguard
      obtain rfl := Option.some.inj hfi
      refine ⟨hne, ?_⟩
      intro x hx hxe
      have hxe' : ids.get? i = some x := hxe
      rw [hxe'] at hguard
      exact hguard (by simpa using hx)

theorem neighborResults_pairwise_idx (ids : List String) (songId : String)
    (excludeIds : List String) (sims : List ℚ) :
    (neighborResults ids songId excludeIds sims).Pairwise
      (fun a b => a.idx < b.idx) := by
  unfold neighborResults
  have hidx : ∀ (i : Nat) (e : NeighborEntry),
      (fun i => let id := ids.get? i
        if id = some songId then none
        else if (match id with | some s => excludeIds.contains s | none => false) then
          (none : Option NeighborEntry)
        else some { idx := i, id := id, score := sims.getD i 0 }) i = some e →
      e.idx = i := by
    intro i e hfi
    simp only at hfi
    split at hfi
    · exact absurd hfi (by simp)
    · split at hfi
      · exact absurd hfi (by simp)
      · obtain rfl := Option.some.inj hfi
        rfl
  refine List.Pairwise.filterMap _ ?_ (List.pairwise_lt_range _)
  intro a a' hlt b hb b' hb'
  rw [hidx a b hb, hidx a' b' hb']
  exact hlt

/-- C7: postcondition of `getNearestNeighbors` — the result never contains
the query id or any excluded id; it is empty when the index is not ready or
the query id is unknown; it has at most `topK` entries; and it is ranked by
descending dot-product score with ties broken by the original (stable)
catalog order, expressed by `neighborOrder` on adjacent-free pairs. -/
theorem nearestNeighbors_post_C7 (r : TfjsRecommender) (songId : String) (topK : Nat)
    (excludeIds : List String) :
    (∀ e ∈ r.getNearestNeighbors songId topK excludeIds,
        e.id ≠ some songId ∧ ∀ x ∈ excludeIds, e.id ≠ some x)
  ∧ (r.ready = false → r.getNearestNeighbors songId topK excludeIds = [])
  ∧ (idToIndex r.ids songId = none → r.getNearestNeighbors songId topK excludeIds = [])
  ∧ (r.getNearestNeighbors songId topK excludeIds).length ≤ topK
  ∧ (r.getNearestNeighbors songId topK excludeIds).Pairwise neighborOrder := by
  by_cases hready : r.ready = true
  · cases hidx : idToIndex r.ids songId with
    | none =>
      have hval : r.getNearestNeighbors songId topK excludeIds = [] := by
        simp [TfjsRecommender.getNearestNeighbors, hready, hidx]
      rw [hval]
      exact ⟨by simp, fun _ => rfl, fun _ => rfl, by simp, List.Pairwise.nil⟩
    | some idx =>
      have hval : r.getNearestNeighbors songId topK excludeIds =
          (sortByScoreDesc (neighborResults r.ids songId excludeIds
            (r.embeddings.map
              (fun v => dotProduct v (r.embeddings.getD idx []))))).take topK := by
        simp [TfjsRecommender.getNearestNeighbors, hready, hidx]
      rw [hval]
      refine ⟨?_, ?_, ?_, ?_, ?_⟩
      · intro e he
        have he' := (List.take_sublist _ _).subset he
        exact neighborResults_spec (mem_sortByScoreDesc.mp he')
      · intro h
        rw [hready] at h
        exact absurd h (by simp)
      · intro h
        exact absurd h (Option.some_ne_none idx)
      · rw [List.length_take]
        exact inf_le_left
      · exact List.Pairwise.sublist (List.take_sublist _ _)
          (pairwise_sortByScoreDesc (neighborResults_pairwise_idx _ _ _ _))
  · have hval : r.getNearestNeighbors songId topK excludeIds = [] := by
      simp [TfjsRecommender.getNearestNeighbors, hready]
    rw [hval]
    exact ⟨by simp, fun _ => rfl, fun _ => rfl, by simp, List.Pairwise.nil⟩

def recW7 : TfjsRecommender :=
  { ids := ["a", "b", "c", "d"],
    embeddings := [[1, 0], [0, 1], [1, 0], [(1 : ℚ)/2, (1 : ℚ)/2]],
    ready := true }

def recW7off : TfjsRecommender :=
  { ids := ["a"], embeddings := [[1]], ready := false }

/-- Witness for C7 at concrete inputs, discharging the conditional parts. -/
theorem nearestNeighbors_post_C7_witness :
    (recW7.getNearestNeighbors "a" 2 ["c"]).length ≤ 2
  ∧ (recW7.getNearestNeighbors "a" 2 ["c"]).Pairwise neighborOrder
  ∧ (recW7off.ready = false ∧ recW7off.getNearestNeighbors "a" 2 [] = [])
  ∧ (idToIndex recW7.ids "zz" = none ∧ recW7.getNearestNeighbors "zz" 2 [] = []) :=
  ⟨(nearestNeighbors_post_C7 recW7 "a" 2 ["c"]).2.2.2.1,
   (nearestNeighbors_post_C7 recW7 "a" 2 ["c"]).2.2.2.2,
   ⟨rfl, (nearestNeighbors_post_C7 recW7off "a" 2 []).2.1 rfl⟩,
   ⟨rfl, (nearestNeighbors_post_C7 recW7 "zz" 2 []).2.2.1 rfl⟩⟩

/-! ### Exhaustion termination -/

theorem jsOr_empty_left (b : String) : jsOr "" b = b := by simp [jsOr]

theorem fetchPopular_empty (env : Env) (excl : List String)
    (hsearch : ∀ q, env.searchSongs q = []) :
    fetchPopularRandomSong env excl = none := by
  simp [fetchPopularRandomSong, hsearch]

theorem fallback_empty_search (n : Nat) (env : Env) (st : PlayerState)
    (hsearch : ∀ q, env.searchSongs q = []) :
    fallbackFreshSongsWithExclusion (n + 1) env st =
      if jsOr st.lastPlayedSongId (st.previouslyPlayed.getLastD "") = "" then
        some (st, [])
      else some ({ st with previouslyPlayed := [], queue := [], index := -1 }, []) := by
  have hpop : ∀ excl, fetchPopularRandomSong env excl = none :=
    fun excl => fetchPopular_empty env excl hsearch
  by_cases hb : jsOr st.lastPlayedSongId (st.previouslyPlayed.getLastD "") = ""
  · rw [fallbackFreshSongsWithExclusion]
    simp only [List.getLastD_eq_getLast?] at hb
    simp [hb, hpop]
  · rw [fallbackFreshSongsWithExclusion]
    simp only [List.getLastD_eq_getLast?] at hb
    simp [hb, hsearch, hpop]

theorem prefetch_empty (n : Nat) (env : Env) (st : PlayerState) (songId : String)
    (hsugg : ∀ s, env.suggestions s = some []) :
    prefetchSuggestionsFor (n + 1) env st songId =
      fallbackFreshSongsWithExclusion n env
        { st with baseSongId := songId, queue := [], index := -1 } := by
  rw [prefetchSuggestionsFor]
  simp [hsugg]

/-- C3: exhaustion terminates and clears. If the suggestion fetch returns an
empty list and every catalog search returns an empty result (the embedding
index plays no part: the cascade never consults it), then a single
`playNextFromSuggestions` invocation completes within fuel 4 — no unbounded
recursion — plays nothing, and leaves the play history, the suggestion
queue, and the cursor cleared. The suggestion queue is empty and the cursor
parked at −1 to begin with (the suggestion provider never returned anything
to enqueue), and history entries are real (non-falsy) ids, as
`addToHistory` guarantees. -/
theorem decideNext_exhaustion_C3 (env : Env) (st : PlayerState)
    (hsugg : ∀ s, env.suggestions s = some [])
    (hsearch : ∀ q, env.searchSongs q = [])
    (hq : st.queue = []) (hi : st.index = -1)
    (hh : "" ∉ st.previouslyPlayed) :
    ∃ st' : PlayerState,
      playNextFromSuggestions 4 env st = some (st', [])
      ∧ st'.previouslyPlayed = [] ∧ st'.queue = [] ∧ st'.index = -1 := by
  have hhist : st.previouslyPlayed.getLastD "" = "" → st.previouslyPlayed = [] := by
    intro h0
    by_contra hne
    obtain ⟨a, ha⟩ := Option.isSome_iff_exists.mp (List.getLast?_isSome.mpr hne)
    have hmem := mem_of_getLast?_eq ha
    have hda : st.previouslyPlayed.getLastD "" = a := by
      rw [List.getLastD_eq_getLast?, ha]; rfl
    rw [hda] at h0
    exact hh (h0 ▸ hmem)
  rw [playNextFromSuggestions]
  rw [if_neg (by simp [hq])]
  simp only [hq, List.getLastD_nil, jsOr_empty_left]
  by_cases hb : jsOr st.lastPlayedSongId
      (jsOr (st.previouslyPlayed.getLastD "") st.baseSongId) = ""
  · -- no base id at all: a single fallback call, nothing to play or clear
    rw [if_pos hb]
    have hlp : st.lastPlayedSongId = "" := by
      by_contra h
      simp only [jsOr] at hb
      rw [if_neg h] at hb
      exact h hb
    have hhl : st.previouslyPlayed.getLastD "" = "" := by
      by_contra h
      simp only [jsOr] at hb
      rw [if_pos hlp, if_neg h] at hb
      exact h hb
    have h3 : fallbackFreshSongsWithExclusion 3 env st = some (st, []) := by
      have he := fallback_empty_search 2 env st hsearch
      rw [show (2 : Nat) + 1 = 3 from rfl] at he
      rw [he, if_pos (by rw [hlp, jsOr_empty_left]; exact hhl)]
    rw [h3]
    exact ⟨st, rfl, hhist hhl, hq, hi⟩
  · rw [if_neg hb]
    -- refill request: empty suggestions, straight to the fallback
    have h3 : prefetchSuggestionsFor 3 env st
        (jsOr st.lastPlayedSongId
          (jsOr (st.previouslyPlayed.getLastD "") st.baseSongId)) =
        fallbackFreshSongsWithExclusion 2 env
          { st with
            baseSongId := jsOr st.lastPlayedSongId
              (jsOr (st.previouslyPlayed.getLastD "") st.baseSongId),
            queue := [], index := -1 } := by
      have hp := prefetch_empty 2 env st
        (jsOr st.lastPlayedSongId
          (jsOr (st.previouslyPlayed.getLastD "") st.baseSongId)) hsugg
      rwa [show (2 : Nat) + 1 = 3 from rfl] at hp
    rw [h3]
    have h2 := fallback_empty_search 1 env
      { st with
        baseSongId := jsOr st.lastPlayedSongId
          (jsOr (st.previouslyPlayed.getLastD "") st.baseSongId),
        queue := [], index := -1 } hsearch
    rw [show (1 : Nat) + 1 = 2 from rfl] at h2
    dsimp only at h2
    rw [h2]
    by_cases hc : jsOr st.lastPlayedSongId (st.previouslyPlayed.getLastD "") = ""
    · -- the inner fallback found no base id either: no play, no clearing
      -- (but the history is already empty)
      have hlp : st.lastPlayedSongId = "" := by
        by_contra h
        simp only [jsOr] at hc
        rw [if_neg h] at hc
        exact h hc
      have hhl : st.previouslyPlayed.getLastD "" = "" := by
        by_contra h
        simp only [jsOr] at hc
        rw [if_pos hlp] at hc
        exact h hc
      rw [if_pos hc]
      have h3f : fallbackFreshSongsWithExclusion 3 env
          { st with
            baseSongId := jsOr st.lastPlayedSongId
              (jsOr (st.previouslyPlayed.getLastD "") st.baseSongId),
            queue := [], index := -1 } =
          some ({ st with
            baseSongId := jsOr st.lastPlayedSongId
              (jsOr (st.previouslyPlayed.getLastD "") st.baseSongId),
            queue := [], index := -1 }, []) := by
        have he := fallback_empty_search 2 env
          { st with
            baseSongId := jsOr st.lastPlayedSongId
              (jsOr (st.previouslyPlayed.getLastD "") st.baseSongId),
            queue := [], index := -1 } hsearch
        rw [show (2 : Nat) + 1 = 3 from rfl] at he
        dsimp only at he
        rw [he, if_pos hc]
      refine ⟨{ st with
          baseSongId := jsOr st.lastPlayedSongId
            (jsOr (st.previouslyPlayed.getLastD "") st.baseSongId),
          queue := [], index := -1 },
        (congrArg (Option.map
          (fun r : PlayerState × List String => (r.1, ([] : List String) ++ r.2)))
          h3f).trans rfl, ?_, rfl, rfl⟩
      exact hhist hhl
    · -- the inner fallback cleared the state; the outer fallback runs on
      -- the cleared state and leaves it cleared
      rw [if_neg hc]
      have h3f := fallback_empty_search 2 env
        { previouslyPlayed := [], lastPlayedSongId := st.lastPlayedSongId,
          baseSongId := jsOr st.lastPlayedSongId
            (jsOr (st.previouslyPlayed.getLastD "") st.baseSongId),
          queue := [], index := -1, counts := st.counts } hsearch
      rw [show (2 : Nat) + 1 = 3 from rfl] at h3f
      dsimp only at h3f
      by_cases hlp : st.lastPlayedSongId = ""
      · rw [if_pos (by rw [hlp]; rfl)] at h3f
        exact ⟨_,
          (congrArg (Option.map
            (fun r : PlayerState × List String => (r.1, ([] : List String) ++ r.2)))
            h3f).trans rfl, rfl, rfl, rfl⟩
      · rw [if_neg (by simp [jsOr, hlp])] at h3f
        exact ⟨_,
          (congrArg (Option.map
            (fun r : PlayerState × List String => (r.1, ([] : List String) ++ r.2)))
            h3f).trans rfl, rfl, rfl, rfl⟩

def envW3 : Env :=
  { suggestions := fun _ => some [], songMeta := fun _ => none,
    searchSongs := fun _ => [], choose := fun _ => 0, autoplay := true }

def stW3 : PlayerState :=
  { previouslyPlayed := ["a", "b"], lastPlayedSongId := "b", baseSongId := "a",
    queue := [], index := -1, counts := ⟨0, 0, 0⟩ }

/-- Witness for C3 at concrete inputs. -/
theorem decideNext_exhaustion_C3_witness :
    (∀ s, envW3.suggestions s = some []) ∧ (∀ q, envW3.searchSongs q = [])
  ∧ stW3.queue = [] ∧ stW3.index = -1 ∧ "" ∉ stW3.previouslyPlayed
  ∧ ∃ st' : PlayerState,
      playNextFromSuggestions 4 envW3 stW3 = some (st', [])
      ∧ st'.previouslyPlayed = [] ∧ st'.queue = [] ∧ st'.index = -1 :=
  ⟨fun _ => rfl, fun _ => rfl, rfl, rfl, by decide,
   decideNext_exhaustion_C3 envW3 stW3 (fun _ => rfl) (fun _ => rfl) rfl rfl (by decide)⟩

/-! ### Self-exclusion of the last-played track -/

theorem getD_mem_drop {l : List String} {k : Nat} (h : k < l.length) :
    l.getD k "" ∈ l.drop k := by
  have h1 : l.getD k "" = l[k] := by
    rw [List.getD_eq_getElem?_getD, List.getElem?_eq_getElem h]; rfl
  have h2 : (l.drop k)[0]? = some l[k] := by
    rw [List.getElem?_drop]
    simp only [Nat.add_zero]
    exact List.getElem?_eq_getElem h
  rw [h1]
  exact List.getElem?_mem h2

theorem getD_zero_mem {l : List String} (h : l ≠ []) : l.getD 0 "" ∈ l := by
  cases l with
  | nil => exact absurd rfl h
  | cons x xs => exact List.mem_cons_self _ _

theorem drop_subset_drop {α : Type} (l : List α) {a b : Nat} (h : b ≤ a) :
    l.drop a ⊆ l.drop b := by
  intro x hx
  rw [show a = b + (a - b) from by omega, ← List.drop_drop] at hx
  exact List.drop_subset _ _ hx

/-- Whether the player still knows X played: either as the current
last-played id or somewhere in the play history. -/
def lastKnown (st : PlayerState) (X : String) : Prop :=
  st.lastPlayedSongId = X ∨ X ∈ st.previouslyPlayed

theorem lastKnown_mem_exclusion {st : PlayerState} {X : String} (hX : X ≠ "")
    (h : lastKnown st X) : X ∈ getExclusionSet st := by
  unfold getExclusionSet
  rcases h with h | h
  · rw [h, if_neg hX]
    simp
  · simp [h]

theorem fetchPopular_mem (env : Env) (excl : List String) (cand : Track)
    (h : fetchPopularRandomSong env excl = some cand) :
    cand.id ≠ "" ∧ cand.id ∉ excl := by
  unfold fetchPopularRandomSong at h
  dsimp only at h
  split at h
  · exact absurd h (by simp)
  · have hmem := List.get?_mem h
    have hp := List.of_mem_filter hmem
    simp only [Bool.and_eq_true, Bool.not_eq_true', beq_eq_false_iff_ne, ne_eq,
      Bool.not_eq_true] at hp
    refine ⟨hp.1, fun hmem2 => ?_⟩
    have hp2 := hp.2
    simp at hp2
    exact hp2 hmem2

/-- On the autoplay path `playSong` issues no nested plays, leaves the
suggestion queue untouched, and keeps the previously last-played id known
(either still last-played, or appended to the history where the fresh
append survives both evictions). -/
theorem playSong_autoplay_spec (n : Nat) (env : Env) (st : PlayerState) (id : String)
    (r : PlayerState × List String)
    (h : playSong n env st id true false = some r) :
    r.2 = [] ∧ r.1.queue = st.queue ∧
    (st.lastPlayedSongId ≠ "" →
      r.1.lastPlayedSongId = st.lastPlayedSongId ∨
        st.lastPlayedSongId ∈ r.1.previouslyPlayed) := by
  match n with
  | 0 => simp [playSong] at h
  | m + 1 =>
    by_cases hc1 : st.lastPlayedSongId = ""
    · cases hm : env.songMeta id with
      | none =>
        simp [playSong, hm, hc1] at h
        subst h
        exact ⟨rfl, rfl, fun hne => absurd hc1 hne⟩
      | some s =>
        simp [playSong, hm, hc1] at h
        subst h
        exact ⟨rfl, rfl, fun hne => absurd hc1 hne⟩
    · by_cases hc2 : st.lastPlayedSongId = id
      · cases hm : env.songMeta id with
        | none =>
          simp [playSong, hm, hc2] at h
          subst h
          exact ⟨rfl, rfl, fun _ => Or.inl rfl⟩
        | some s =>
          simp [playSong, hm, hc2] at h
          subst h
          refine ⟨rfl, rfl, fun _ => Or.inl ?_⟩
          exact hc2.symm
      · cases hm : env.songMeta id with
        | none =>
          simp [playSong, hm, hc1, hc2] at h
          subst h
          exact ⟨rfl, rfl, fun _ => Or.inl rfl⟩
        | some s =>
          simp [playSong, hm, hc1, hc2] at h
          subst h
          exact ⟨rfl, rfl, fun _ =>
            Or.inr (mem_clamp_addToHistory st.previouslyPlayed st.lastPlayedSongId hc1)⟩

/-- The fallback cascade never plays a track the player knows it just
played (every candidate is filtered through the exclusion set computed at
entry), it keeps the last-played id known, and it never populates the
suggestion queue. -/
theorem fallback_spec (n : Nat) (env : Env) (st : PlayerState) (X : String)
    (hX : X ≠ "") (r : PlayerState × List String)
    (h : fallbackFreshSongsWithExclusion n env st = some r) :
    (lastKnown st X → X ∉ r.2)
    ∧ (st.lastPlayedSongId = X → lastKnown r.1 X)
    ∧ (r.1.queue = st.queue ∨ r.1.queue = []) := by
  match n with
  | 0 => simp [fallbackFreshSongsWithExclusion] at h
  | m + 1 =>
    rw [fallbackFreshSongsWithExclusion] at h
    dsimp only at h
    split at h
    · -- no base id: popular tier only
      split at h
      case h_1 cand heq =>
        split at h
        · simp only [Option.some.injEq] at h
          subst h
          exact ⟨fun _ => by simp, fun hlp => Or.inl hlp, Or.inl rfl⟩
        · rename_i hcid
          obtain ⟨_, hcex⟩ := fetchPopular_mem env _ cand heq
          rw [Option.map_eq_some'] at h
          obtain ⟨r0, hr0, hfr⟩ := h
          obtain ⟨hps, hqueue, hlast⟩ := playSong_autoplay_spec m env st cand.id r0 hr0
          subst hfr
          refine ⟨?_, ?_, Or.inl hqueue⟩
          · intro hk hxmem
            rw [hps] at hxmem
            rcases List.mem_cons.mp hxmem with rfl | hx0
            · exact hcex (lastKnown_mem_exclusion hX hk)
            · exact absurd hx0 (List.not_mem_nil X)
          · intro hlp
            rcases hlast (by rw [hlp]; exact hX) with h1 | h2
            · exact Or.inl (h1.trans hlp)
            · exact Or.inr (hlp ▸ h2)
      case h_2 heq =>
        simp only [Option.some.injEq] at h
        subst h
        exact ⟨fun _ => by simp, fun hlp => Or.inl hlp, Or.inl rfl⟩
    · -- base id known: the query-string choice (language+year vs language
      -- only) does not matter; then the fresh year/language tier, then
      -- popular, then the loop-breaking clear
      split at h
      all_goals split at h
      all_goals first
      | · -- fresh candidates available
          split at h
          case h_1 fb heq =>
            have hmem := List.get?_mem heq
            have hp := List.of_mem_filter hmem
            simp only [Bool.and_eq_true, Bool.not_eq_true', beq_eq_false_iff_ne, ne_eq,
              Bool.not_eq_true] at hp
            have hfex : fb.id ∉ getExclusionSet st := by
              have hp2 := hp.2
              simp at hp2
              exact hp2
            rw [Option.map_eq_some'] at h
            obtain ⟨r0, hr0, hfr⟩ := h
            obtain ⟨hps, hqueue, hlast⟩ := playSong_autoplay_spec _ env st fb.id r0 hr0
            subst hfr
            refine ⟨?_, ?_, Or.inl hqueue⟩
            · intro hk hxmem
              rw [hps] at hxmem
              rcases List.mem_cons.mp hxmem with rfl | hx0
              · exact hfex (lastKnown_mem_exclusion hX hk)
              · exact absurd hx0 (List.not_mem_nil X)
            · intro hlp
              rcases hlast (by rw [hlp]; exact hX) with h1 | h2
              · exact Or.inl (h1.trans hlp)
              · exact Or.inr (hlp ▸ h2)
          case h_2 heq =>
            simp only [Option.some.injEq] at h
            subst h
            exact ⟨fun _ => by simp, fun hlp => Or.inl hlp, Or.inl rfl⟩
      | · -- no fresh candidate: popular, else break the loop by clearing
          split at h
          case h_1 popular heq =>
            split at h
            · simp only [Option.some.injEq] at h
              subst h
              exact ⟨fun _ => by simp, fun hlp => Or.inl hlp, Or.inr rfl⟩
            · obtain ⟨_, hcex⟩ := fetchPopular_mem env _ popular heq
              rw [Option.map_eq_some'] at h
              obtain ⟨r0, hr0, hfr⟩ := h
              obtain ⟨hps, hqueue, hlast⟩ := playSong_autoplay_spec _ env st popular.id r0 hr0
              subst hfr
              refine ⟨?_, ?_, Or.inl hqueue⟩
              · intro hk hxmem
                rw [hps] at hxmem
                rcases List.mem_cons.mp hxmem with rfl | hx0
                · exact hcex (lastKnown_mem_exclusion hX hk)
                · exact absurd hx0 (List.not_mem_nil X)
              · intro hlp
                rcases hlast (by rw [hlp]; exact hX) with h1 | h2
                · exact Or.inl (h1.trans hlp)
                · exact Or.inr (hlp ▸ h2)
          case h_2 heq =>
            simp only [Option.some.injEq] at h
            subst h
            exact ⟨fun _ => by simp, fun hlp => Or.inl hlp, Or.inr rfl⟩

/-- `prefetchSuggestionsFor` never records the last-played id in the new
queue (the exclusion filter contains it) and never plays it through its
fallback; when it does produce a queue, no play happened at all. -/
theorem prefetch_spec (n : Nat) (env : Env) (st : PlayerState) (songId X : String)
    (hX : X ≠ "") (hlp : st.lastPlayedSongId = X) (r : PlayerState × List String)
    (h : prefetchSuggestionsFor n env st songId = some r) :
    X ∉ r.2 ∧ X ∉ r.1.queue ∧ lastKnown r.1 X
    ∧ (r.1.queue ≠ [] → r.1.lastPlayedSongId = X ∧ r.2 = []) := by
  match n with
  | 0 => simp [prefetchSuggestionsFor] at h
  | m + 1 =>
    rw [prefetchSuggestionsFor] at h
    dsimp only at h
    have hlp0 : ({ st with baseSongId := songId, queue := [], index := -1 }
        : PlayerState).lastPlayedSongId = X := hlp
    split at h
    case h_1 heq =>
      have hf := fallback_spec m env _ X hX r h
      have hq0 : r.1.queue = [] := by
        rcases hf.2.2 with hq | hq
        · exact hq
        · exact hq
      exact ⟨hf.1 (Or.inl hlp0), by simp [hq0], hf.2.1 hlp0,
        fun hne => absurd hq0 hne⟩
    case h_2 data heq =>
      split at h
      · have hf := fallback_spec m env _ X hX r h
        have hq0 : r.1.queue = [] := by
          rcases hf.2.2 with hq | hq
          · exact hq
          · exact hq
        exact ⟨hf.1 (Or.inl hlp0), by simp [hq0], hf.2.1 hlp0,
          fun hne => absurd hq0 hne⟩
      · simp only [Option.some.injEq] at h
        subst h
        refine ⟨by simp, ?_, Or.inl hlp, fun _ => ⟨hlp, rfl⟩⟩
        intro hxmem
        have hp := List.of_mem_filter hxmem
        simp only [Bool.and_eq_true, Bool.not_eq_true', beq_eq_false_iff_ne, ne_eq,
          Bool.not_eq_true] at hp
        have hp2 := hp.2
        simp at hp2
        exact hp2 (lastKnown_mem_exclusion hX (Or.inl hlp0))

/-- C1 (amended): after `recordPlayed(X)` (in code: `playSong` finishing with
`lastPlayedSongId = X`), an immediately following `decideNext` never selects
X through the suggestion-refill, year/language-search, or popularity tiers —
each consults the exclusion set, which contains the last-played id — and the
queue-replay tier cannot select X unless X itself still occurs in the
suggestion queue after the cursor (the tier consults only the history-based
repeat gate, not the last-played id). -/
theorem decideNext_self_exclusion_C1 (fuel : Nat) :
    ∀ (env : Env) (st : PlayerState) (X : String) (r : PlayerState × List String),
      X ≠ "" → st.lastPlayedSongId = X →
      X ∉ st.queue.drop (st.index + 1).toNat →
      playNextFromSuggestions fuel env st = some r → X ∉ r.2 := by
  induction fuel with
  | zero =>
    intro env st X r _ _ _ h
    simp [playNextFromSuggestions] at h
  | succ n ih =>
    intro env st X r hX hlp hq h
    rw [playNextFromSuggestions] at h
    dsimp only at h
    split at h
    · -- tier 1: queue replay
      rename_i hcond
      have hlt : (st.index + 1).toNat < st.queue.length := by
        obtain ⟨h1, h2⟩ := hcond
        omega
      have hne : st.queue.getD (st.index + 1).toNat "" ≠ X :=
        fun he => hq (he ▸ getD_mem_drop hlt)
      split at h
      · -- repeat gate rejected the entry: recurse with the cursor advanced
        have hq' : X ∉ st.queue.drop ((st.index + 1) + 1).toNat :=
          fun hm => hq (drop_subset_drop _ (Int.toNat_le_toNat (by omega)) hm)
        exact ih env { st with index := st.index + 1 } X r hX hlp hq' h
      · split at h
        case h_1 heq => simp at h
        case h_2 st2 ps heq =>
          simp only [Option.some.injEq] at h
          subst h
          obtain ⟨hps, _, _⟩ := playSong_autoplay_spec n env _ _ (st2, ps) heq
          intro hxmem
          rcases List.mem_cons.mp hxmem with rfl | hx0
          · exact hne rfl
          · have hps' : ps = [] := hps
            rw [hps'] at hx0
            exact absurd hx0 (List.not_mem_nil _)
    · -- tiers 2-4: refill and fallback cascade
      split at h
      · exact (fallback_spec n env st X hX r h).1 (Or.inl hlp)
      · split at h
        case h_1 heq => simp at h
        case h_2 st1 ps1 heq =>
          obtain ⟨hp1, hp2, hp3, hp4⟩ := prefetch_spec n env st _ X hX hlp (st1, ps1) heq
          split at h
          · -- refilled queue: play (or gate-skip) its head
            rename_i hq1
            have hq1' : st1.queue ≠ [] := fun h0 => hq1 (by rw [h0]; rfl)
            obtain ⟨hlp1, hps1⟩ := hp4 hq1'
            split at h
            · -- gate rejected the head: recurse on the refilled state
              rw [Option.map_eq_some'] at h
              obtain ⟨r2, hr2, hfr⟩ := h
              have hq' : X ∉ ({ st1 with index := 0 } : PlayerState).queue.drop
                  (((0 : Int) + 1)).toNat :=
                fun hm => hp2 (List.drop_subset _ _ hm)
              have hrec := ih env { st1 with index := 0 } X r2 hX hlp1 hq' hr2
              subst hfr
              intro hxmem
              rcases List.mem_append.mp hxmem with hx | hx
              · exact hp1 hx
              · exact hrec hx
            · rw [Option.map_eq_some'] at h
              obtain ⟨r2, hr2, hfr⟩ := h
              obtain ⟨hps, _, _⟩ := playSong_autoplay_spec n env _ _ r2 hr2
              subst hfr
              intro hxmem
              rcases List.mem_append.mp hxmem with hx | hx
              · exact hp1 hx
              · rcases List.mem_cons.mp hx with rfl | hx0
                · exact hp2 (getD_zero_mem hq1')
                · rw [hps] at hx0
                  exact absurd hx0 (List.not_mem_nil _)
          · -- still no queue: run the fallback cascade on the updated state
            rw [Option.map_eq_some'] at h
            obtain ⟨r2, hr2, hfr⟩ := h
            have hf := fallback_spec n env st1 X hX r2 hr2
            subst hfr
            intro hxmem
            rcases List.mem_append.mp hxmem with hx | hx
            · exact hp1 hx
            · exact hf.1 hp3 hx

def env1C : Env :=
  { suggestions := fun _ => some [],
    songMeta := fun id => if id = "x" then some ⟨"x", "Telugu", "2015"⟩ else none,
    searchSongs := fun _ => [],
    choose := fun _ => 0,
    autoplay := true }

/-- A reachable state: the suggestion fetch for some earlier track returned
the duplicate list ["x", "x"] (nothing de-duplicates it), position 0 was
autoplayed — making "x" the last-played track and pushing the previous one
into the history — and the cursor rests at 0. -/
def st1C : PlayerState :=
  { previouslyPlayed := ["a"], lastPlayedSongId := "x", baseSongId := "a",
    queue := ["x", "x"], index := 0, counts := ⟨0, 0, 0⟩ }

/-- C1 counterexample: with `recordPlayed("x")` just completed
(`lastPlayedSongId = "x"`) and "x" still queued after the cursor, the
queue-replay tier returns "x" itself — the repeat gate consults only the
history, which does not yet contain "x". -/
theorem decideNext_self_exclusion_C1_counterexample :
    st1C.lastPlayedSongId = "x"
  ∧ (playNextFromSuggestions 2 env1C st1C).map (fun r => r.2) = some ["x"] :=
  ⟨rfl, rfl⟩

def stW1 : PlayerState :=
  { previouslyPlayed := ["a"], lastPlayedSongId := "x", baseSongId := "a",
    queue := [], index := -1, counts := ⟨0, 0, 0⟩ }

def rW1 : PlayerState × List String :=
  ({ previouslyPlayed := [], lastPlayedSongId := "x", baseSongId := "x",
     queue := [], index := -1, counts := ⟨0, 0, 0⟩ }, [])

/-- Witness for the amended C1 at concrete inputs. -/
theorem decideNext_self_exclusion_C1_witness :
    ("x" : String) ≠ ""
  ∧ stW1.lastPlayedSongId = "x"
  ∧ "x" ∉ stW1.queue.drop (stW1.index + 1).toNat
  ∧ playNextFromSuggestions 4 env1C stW1 = some rW1
  ∧ "x" ∉ rW1.2 :=
  ⟨by decide, rfl, by decide, rfl,
   decideNext_self_exclusion_C1 4 env1C stW1 "x" rW1 (by decide) rfl (by decide) rfl⟩

/-! ### The language counters are never consulted by the decision cascade -/

/-- Forget the language counters of a state (used to compare two runs that
differ only in the counters). -/
def eraseCounts (st : PlayerState) : PlayerState := { st with counts := ⟨0, 0, 0⟩ }

theorem map_eraseCounts_congr (g : List String → List String)
    {xA xB : Option (PlayerState × List String)}
    (h : xA.map (fun r => (eraseCounts r.1, r.2))
      = xB.map (fun r => (eraseCounts r.1, r.2))) :
    (xA.map (fun r => (r.1, g r.2))).map (fun r => (eraseCounts r.1, r.2))
      = (xB.map (fun r => (r.1, g r.2))).map (fun r => (eraseCounts r.1, r.2)) := by
  cases xA with
  | none =>
    cases xB with
    | none => rfl
    | some b => simp at h
  | some a =>
    cases xB with
    | none => simp at h
    | some b =>
      simp only [Option.map_some', Option.some.injEq, Prod.mk.injEq] at h ⊢
      exact ⟨h.1, by rw [h.2]⟩

/-- No function of the decision pipeline reads the language counters: two
runs from states that agree except on the counters make identical decisions
and end in states that again agree except on the counters. -/
theorem counts_not_consulted (n : Nat) :
    (∀ (env : Env) (stA stB : PlayerState) (id : String) (fa fh : Bool),
      eraseCounts stA = eraseCounts stB →
      (playSong n env stA id fa fh).map (fun r => (eraseCounts r.1, r.2))
        = (playSong n env stB id fa fh).map (fun r => (eraseCounts r.1, r.2)))
    ∧ (∀ (env : Env) (stA stB : PlayerState) (songId : String),
      eraseCounts stA = eraseCounts stB →
      (prefetchSuggestionsFor n env stA songId).map (fun r => (eraseCounts r.1, r.2))
        = (prefetchSuggestionsFor n env stB songId).map (fun r => (eraseCounts r.1, r.2)))
    ∧ (∀ (env : Env) (stA stB : PlayerState),
      eraseCounts stA = eraseCounts stB →
      (fallbackFreshSongsWithExclusion n env stA).map (fun r => (eraseCounts r.1, r.2))
        = (fallbackFreshSongsWithExclusion n env stB).map (fun r => (eraseCounts r.1, r.2)))
    ∧ (∀ (env : Env) (stA stB : PlayerState),
      eraseCounts stA = eraseCounts stB →
      (playNextFromSuggestions n env stA).map (fun r => (eraseCounts r.1, r.2))
        = (playNextFromSuggestions n env stB).map (fun r => (eraseCounts r.1, r.2))) := by
  induction n with
  | zero =>
    exact ⟨fun _ _ _ _ _ _ _ => rfl, fun _ _ _ _ _ => rfl,
      fun _ _ _ _ => rfl, fun _ _ _ _ => rfl⟩
  | succ m ih =>
    obtain ⟨ihP, ihPre, ihF, ihN⟩ := ih
    refine ⟨?_, ?_, ?_, ?_⟩
    · -- playSong
      intro env stA stB id fa fh hAB
      obtain ⟨p1, l1, b1, q1, i1, c1⟩ := stA
      obtain ⟨p2, l2, b2, q2, i2, c2⟩ := stB
      simp only [eraseCounts, PlayerState.mk.injEq, and_true] at hAB
      obtain ⟨hp, hl, hb, hq, hi⟩ := hAB
      subst hp; subst hl; subst hb; subst hq; subst hi
      simp only [playSong]
      split
      all_goals try split
      all_goals try split
      all_goals first
        | rfl
        | exact ihPre _ _ _ _ rfl
    · -- prefetchSuggestionsFor
      intro env stA stB songId hAB
      obtain ⟨p1, l1, b1, q1, i1, c1⟩ := stA
      obtain ⟨p2, l2, b2, q2, i2, c2⟩ := stB
      simp only [eraseCounts, PlayerState.mk.injEq, and_true] at hAB
      obtain ⟨hp, hl, hb, hq, hi⟩ := hAB
      subst hp; subst hl; subst hb; subst hq; subst hi
      simp only [prefetchSuggestionsFor]
      split
      all_goals try split
      all_goals first
        | rfl
        | exact ihF _ _ _ rfl
    · -- fallbackFreshSongsWithExclusion
      intro env stA stB hAB
      obtain ⟨p1, l1, b1, q1, i1, c1⟩ := stA
      obtain ⟨p2, l2, b2, q2, i2, c2⟩ := stB
      simp only [eraseCounts, PlayerState.mk.injEq, and_true] at hAB
      obtain ⟨hp, hl, hb, hq, hi⟩ := hAB
      subst hp; subst hl; subst hb; subst hq; subst hi
      simp only [fallbackFreshSongsWithExclusion]
      dsimp only [getExclusionSet]
      split
      all_goals try split
      all_goals try split
      all_goals try split
      all_goals try split
      all_goals try split
      all_goals first
        | rfl
        | exact map_eraseCounts_congr _ (ihP _ _ _ _ _ _ rfl)
    · -- playNextFromSuggestions
      intro env stA stB hAB
      obtain ⟨p1, l1, b1, q1, i1, c1⟩ := stA
      obtain ⟨p2, l2, b2, q2, i2, c2⟩ := stB
      simp only [eraseCounts, PlayerState.mk.injEq, and_true] at hAB
      obtain ⟨hp, hl, hb, hq, hi⟩ := hAB
      subst hp; subst hl; subst hb; subst hq; subst hi
      simp only [playNextFromSuggestions]
      split
      · -- tier 1
        split
        · exact ihN _ _ _ rfl
        · -- play the queue entry: thread the playSong results
          have hps := ihP env
            { previouslyPlayed := p1, lastPlayedSongId := l1, baseSongId := b1,
              queue := q1, index := i1 + 1, counts := c1 }
            { previouslyPlayed := p1, lastPlayedSongId := l1, baseSongId := b1,
              queue := q1, index := i1 + 1, counts := c2 }
            (q1.getD (i1 + 1).toNat "") true false rfl
          cases hA : playSong m env
              { previouslyPlayed := p1, lastPlayedSongId := l1, baseSongId := b1,
                queue := q1, index := i1 + 1, counts := c1 }
              (q1.getD (i1 + 1).toNat "") true false with
          | none =>
            cases hB : playSong m env
                { previouslyPlayed := p1, lastPlayedSongId := l1, baseSongId := b1,
                  queue := q1, index := i1 + 1, counts := c2 }
                (q1.getD (i1 + 1).toNat "") true false with
            | none => rfl
            | some rb => rw [hA, hB] at hps; simp at hps
          | some ra =>
            cases hB : playSong m env
                { previouslyPlayed := p1, lastPlayedSongId := l1, baseSongId := b1,
                  queue := q1, index := i1 + 1, counts := c2 }
                (q1.getD (i1 + 1).toNat "") true false with
            | none => rw [hA, hB] at hps; simp at hps
            | some rb =>
              obtain ⟨sa, pa⟩ := ra
              obtain ⟨sb, pb⟩ := rb
              rw [hA, hB] at hps
              simp only [Option.map_some', Option.some.injEq, Prod.mk.injEq] at hps
              obtain ⟨hse, hpe⟩ := hps
              subst hpe
              obtain ⟨pa1, la1, ba1, qa1, ia1, ca1⟩ := sa
              obtain ⟨pb1, lb1, bb1, qb1, ib1, cb1⟩ := sb
              simp only [eraseCounts, PlayerState.mk.injEq, and_true] at hse
              obtain ⟨e1, e2, e3, e4, e5⟩ := hse
              subst e1; subst e2; subst e3; subst e4; subst e5
              rfl
      · -- tiers 2/3
        split
        · exact ihF _ _ _ rfl
        · -- thread the prefetch results
          have hpre := ihPre env
            { previouslyPlayed := p1, lastPlayedSongId := l1, baseSongId := b1,
              queue := q1, index := i1, counts := c1 }
            { previouslyPlayed := p1, lastPlayedSongId := l1, baseSongId := b1,
              queue := q1, index := i1, counts := c2 }
            (jsOr (q1.getLastD "") (jsOr l1 (jsOr (p1.getLastD "") b1))) rfl
          cases hA : prefetchSuggestionsFor m env
              { previouslyPlayed := p1, lastPlayedSongId := l1, baseSongId := b1,
                queue := q1, index := i1, counts := c1 }
              (jsOr (q1.getLastD "") (jsOr l1 (jsOr (p1.getLastD "") b1))) with
          | none =>
            cases hB : prefetchSuggestionsFor m env
                { previouslyPlayed := p1, lastPlayedSongId := l1, baseSongId := b1,
                  queue := q1, index := i1, counts := c2 }
                (jsOr (q1.getLastD "") (jsOr l1 (jsOr (p1.getLastD "") b1))) with
            | none => rfl
            | some rb => rw [hA, hB] at hpre; simp at hpre
          | some ra =>
            cases hB : prefetchSuggestionsFor m env
                { previouslyPlayed := p1, lastPlayedSongId := l1, baseSongId := b1,
                  queue := q1, index := i1, counts := c2 }
                (jsOr (q1.getLastD "") (jsOr l1 (jsOr (p1.getLastD "") b1))) with
            | none => rw [hA, hB] at hpre; simp at hpre
            | some rb =>
              obtain ⟨sa, pa⟩ := ra
              obtain ⟨sb, pb⟩ := rb
              rw [hA, hB] at hpre
              simp only [Option.map_some', Option.some.injEq, Prod.mk.injEq] at hpre
              obtain ⟨hse, hpe⟩ := hpre
              subst hpe
              obtain ⟨pa1, la1, ba1, qa1, ia1, ca1⟩ := sa
              obtain ⟨pb1, lb1, bb1, qb1, ib1, cb1⟩ := sb
              simp only [eraseCounts, PlayerState.mk.injEq, and_true] at hse
              obtain ⟨e1, e2, e3, e4, e5⟩ := hse
              subst e1; subst e2; subst e3; subst e4; subst e5
              dsimp only
              split
              · split
                · exact map_eraseCounts_congr (fun x => pa ++ x)
                    (ihN env ⟨pa1, la1, ba1, qa1, 0, ca1⟩ ⟨pa1, la1, ba1, qa1, 0, cb1⟩ rfl)
                · exact map_eraseCounts_congr (fun x => pa ++ qa1.getD 0 "" :: x)
                    (ihP env ⟨pa1, la1, ba1, qa1, 0, ca1⟩ ⟨pa1, la1, ba1, qa1, 0, cb1⟩
                      (qa1.getD 0 "") true false rfl)
              · exact map_eraseCounts_congr (fun x => pa ++ x)
                  (ihF env ⟨pa1, la1, ba1, qa1, ia1, ca1⟩ ⟨pa1, la1, ba1, qa1, ia1, cb1⟩ rfl)

def env4C : Env :=
  { suggestions := fun _ => some [],
    songMeta := fun id =>
      if id = "t0" then some ⟨"t0", "Telugu", "2015"⟩
      else if id = "y" then some ⟨"y", "Telugu", "2015"⟩
      else if id = "m" then some ⟨"m", "Malayalam", "2015"⟩ else none,
    searchSongs := fun q =>
      if q = "Telugu 2015" then [⟨"y", "Telugu", "2015"⟩]
      else if q = "malayalam 2015" then [⟨"m", "Malayalam", "2015"⟩] else [],
    choose := fun _ => 0,
    autoplay := true }

/-- Base track "t0" is telugu and the telugu consecutive-play counter sits
exactly at its threshold 3. -/
def st4C : PlayerState :=
  { previouslyPlayed := ["a", "b", "c"], lastPlayedSongId := "t0", baseSongId := "t0",
    queue := [], index := -1, counts := ⟨0, 3, 0⟩ }

/-- C4 counterexample: with the telugu counter at its threshold (so
`shouldPlayDiverse` fires) and a preferred-language (malayalam) candidate
"m" available to a diversity sweep, the cascade still selects "y" — the
telugu year/language-tier result — because no tier consults the counter
predicate; the decision is not diverted to the diversity sweep. -/
theorem diversity_not_wired_C4_counterexample :
    shouldPlayDiverse st4C.counts "Telugu" = true
  ∧ env4C.searchSongs "malayalam 2015" = [⟨"m", "Malayalam", "2015"⟩]
  ∧ (playNextFromSuggestions 4 env4C st4C).map (fun r => r.2) = some ["y"]
  ∧ (env4C.songMeta "y").map Track.language = some "Telugu"
  ∧ ("y" : String) ≠ "m" :=
  ⟨rfl, rfl, rfl, rfl, by decide⟩

/-- C4 (amended): `shouldPlayDiverse` does report the telugu threshold (3)
reached, but the decision cascade never consults it: the tracks selected by
`playNextFromSuggestions` are identical for any two values of the language
counters, so no counter value can raise the diversity sweep's priority over
the year/language tier. -/
theorem diversity_not_wired_C4 :
    shouldPlayDiverse ⟨0, 3, 0⟩ "telugu" = true
  ∧ ∀ (fuel : Nat) (env : Env) (st : PlayerState) (c₁ c₂ : LangCounts),
      (playNextFromSuggestions fuel env { st with counts := c₁ }).map (fun r => r.2)
        = (playNextFromSuggestions fuel env { st with counts := c₂ }).map (fun r => r.2) := by
  refine ⟨rfl, ?_⟩
  intro fuel env st c₁ c₂
  have h := (counts_not_consulted fuel).2.2.2 env
    { st with counts := c₁ } { st with counts := c₂ } rfl
  cases hA : playNextFromSuggestions fuel env { st with counts := c₁ } with
  | none =>
    cases hB : playNextFromSuggestions fuel env { st with counts := c₂ } with
    | none => rfl
    | some rb => rw [hA, hB] at h; simp at h
  | some ra =>
    cases hB : playNextFromSuggestions fuel env { st with counts := c₂ } with
    | none => rw [hA, hB] at h; simp at h
    | some rb =>
      rw [hA, hB] at h
      simp only [Option.map_some', Option.some.injEq, Prod.mk.injEq] at h
      simp [h.2]
